import Mathlib

/-!
Verification development for the sitemap-discovery core of the
sfheadless repository (src/sitemap.js and src/a11y.js).

Modelling conventions:
- JavaScript strings are modelled as lists of UTF-16 code points
  (`JSStr := List Nat`); `charCodeAt` becomes list membership /
  arithmetic on the codes.  `jstr` converts a Lean string literal.
- `String.prototype.trim`, `toLowerCase` (ASCII letters; non-ASCII
  case mappings are identities in this model), `split`, `indexOf`,
  `substring` are translated code-point by code-point.
- The float comparison `printableChars / content.length > 0.8` in
  `isTextContent` (src/sitemap.js lines 118-124) is modelled by the
  exact integer comparison `4 * length < 5 * printable`; for every
  string a JavaScript engine can hold the two agree (the gap between
  0.8 and its closest double is far below 1/(5n)), and 0/0 = NaN
  compares false just as 0 < 0 does.
- Network fetches, gzip decompression (zlib) and URL resolution
  (new URL) are Node builtins, not repository code: they appear as
  explicit oracles (function parameters), and the XML parser
  (fast-xml-parser) as an already-parsed document type mirroring the
  duck-typed field checks done by the repository code.
-/

/-- JavaScript string: list of UTF-16 code points. -/
abbrev JSStr : Type := List Nat

/-- Convert a Lean string literal to its code-point list. -/
def jstr (s : String) : JSStr := s.data.map Char.toNat

/-- The code points matched by the JavaScript whitespace class
(used by both `trim` and the regex class represented by a backslash-s). -/
def wsCodes : List Nat :=
  [9, 10, 11, 12, 13, 32, 160, 5760, 8192, 8193, 8194, 8195, 8196, 8197,
   8198, 8199, 8200, 8201, 8202, 8232, 8233, 8239, 8287, 12288, 65279]

/-- Whether a code point is JavaScript whitespace. -/
def isWs (c : Nat) : Bool := wsCodes.contains c

/-- `String.prototype.toLowerCase` on one code point (ASCII letters). -/
def lower (c : Nat) : Nat := if 65 ≤ c ∧ c ≤ 90 then c + 32 else c

/-- Remove trailing JavaScript whitespace. -/
def rtrim (l : JSStr) : JSStr := (l.reverse.dropWhile isWs).reverse

/-- `String.prototype.trim`: drop leading and trailing whitespace. -/
def trim (l : JSStr) : JSStr := rtrim (l.dropWhile isWs)

/-- Boolean prefix test on code-point lists (`String.prototype.startsWith`). -/
def isPfx : JSStr → JSStr → Bool
  | [], _ => true
  | _ :: _, [] => false
  | p :: ps, c :: cs => if p = c then isPfx ps cs else false

/-- `split` on the newline code point 10, keeping empty pieces, as
JavaScript `.split(String.fromCharCode(10))` does. -/
def splitNl : JSStr → List JSStr
  | [] => [[]]
  | c :: rest =>
    if c = 10 then [] :: splitNl rest
    else
      match splitNl rest with
      | h :: t => (c :: h) :: t
      | [] => [[c]]

/-- `line.substring(line.indexOf(58) + 1)` when the colon (code 58) is
present: everything after the first colon; `none` when there is no colon
(the source then substitutes the empty string). -/
def dropAfterColon : JSStr → Option JSStr
  | [] => none
  | c :: rest => if c = 58 then some rest else dropAfterColon rest

/-- The URL extracted from one robots.txt line by src/sitemap.js lines
83-86: text after the first colon, trimmed; empty when no colon exists. -/
def afterColonTrim (line : JSStr) : JSStr :=
  match dropAfterColon line with
  | some r => trim r
  | none => []

/-- Count of code points in the printable ASCII range, per the test
`char > 31 && char < 127` of src/sitemap.js line 119. -/
def printableCount (content : JSStr) : Nat :=
  (content.filter (fun c => decide (31 < c ∧ c < 127))).length

/-- `isTextContent` of src/sitemap.js lines 118-124:
`printableChars / content.length > 0.8`, in exact integer form. -/
def isTextContent (content : JSStr) : Bool :=
  decide (4 * content.length < 5 * printableCount content)

/-- The line filter of src/sitemap.js line 82:
`line.trim().toLowerCase().startsWith(sitemap-colon)`. -/
def lineIsSitemap (line : JSStr) : Bool :=
  isPfx (jstr "sitemap:") ((trim line).map lower)

/-- The textual-path robots.txt scan of src/sitemap.js lines 80-87:
split into lines, keep the sitemap-prefixed ones, map each to the text
after its first colon (trimmed), and drop empty extractions. -/
def sitemapLinesFromRobots (txt : JSStr) : List JSStr :=
  (((splitNl txt).filter lineIsSitemap).map afterColonTrim).filter
    (fun u => decide (0 < u.length))

/-- Case-insensitive literal match: consume the given lowercase pattern
from the front of the input, returning the rest. -/
def stripCI : JSStr → JSStr → Option JSStr
  | [], s => some s
  | _ :: _, [] => none
  | p :: ps, c :: cs => if lower c = p then stripCI ps cs else none

/-- One attempt of the fallback regex of src/sitemap.js line 94 at the
current position: case-insensitive `sitemap:`, then greedy whitespace,
then `http` with optional `s` and `://`, then one-or-more non-whitespace
code points.  Returns the verbatim URL portion (what remains of the
match once the source strips the sitemap-colon-whitespace prefix) and
the input remaining after the whole match. -/
def matchSitemapAt (s : JSStr) : Option (JSStr × JSStr) :=
  match stripCI (jstr "sitemap:") s with
  | none => none
  | some s1 =>
    let s2 := s1.dropWhile isWs
    match stripCI (jstr "http") s2 with
    | none => none
    | some s3 =>
      let hasS : Bool := match s3 with
        | c :: _ => decide (lower c = 115)
        | [] => false
      let s4 := if hasS then s3.tail else s3
      match stripCI (jstr "://") s4 with
      | none => none
      | some s5 =>
        let body := s5.takeWhile (fun c => !isWs c)
        if body.isEmpty then none
        else
          some (s2.take (4 + (if hasS then 1 else 0) + 3 + body.length),
                s5.dropWhile (fun c => !isWs c))

/-- Fuel-indexed global regex scan.  Every step consumes at least one
code point of the input, so fuel equal to the input length suffices; the
fuel only makes the structural recursion explicit. -/
def regexScanAux : Nat → JSStr → List JSStr
  | 0, _ => []
  | n + 1, s =>
    match matchSitemapAt s with
    | some (url, after) => trim url :: regexScanAux n after
    | none =>
      match s with
      | [] => []
      | _ :: rest => regexScanAux n rest

/-- The binary-content fallback of src/sitemap.js lines 94-99: all
regex matches, each stripped of its sitemap-colon prefix and trimmed. -/
def regexSitemapScan (txt : JSStr) : List JSStr :=
  regexScanAux txt.length txt

/-- The body of `findSitemapsFromRobotsTxt` after a successful fetch
(src/sitemap.js lines 74-100): textual content goes through the
line-by-line scan, binary-looking content through the regex fallback. -/
def robotsSitemapLines (txt : JSStr) : List JSStr :=
  if isTextContent txt then sitemapLinesFromRobots txt
  else regexSitemapScan txt

/-- `findSitemapsFromRobotsTxt` of src/sitemap.js lines 63-115, with the
robots.txt fetch outcome made explicit: a failed fetch falls back to the
two conventional locations. -/
def findSitemapsFromRobotsTxt (base : JSStr) (robots : Except Unit JSStr) :
    List JSStr :=
  match robots with
  | .ok txt => robotsSitemapLines txt
  | .error _ => [base ++ jstr "/sitemap.xml", base ++ jstr "/sitemap_index.xml"]

/-- The locator as seen by `main` (src/sitemap.js lines 34-42): when the
robots.txt path produced no sitemap at all, substitute the single
default location. -/
def locateSitemaps (base : JSStr) (robots : Except Unit JSStr) : List JSStr :=
  let s := findSitemapsFromRobotsTxt base robots
  if s.length = 0 then [base ++ jstr "/sitemap.xml"] else s

/-- One-or-many normalization done by the repository code via
`Array.isArray(x) ? x : [x]`. -/
inductive XmlItems (α : Type) : Type
  | one : α → XmlItems α
  | many : List α → XmlItems α
deriving DecidableEq

/-- The list form the source normalizes to. -/
def XmlItems.toList {α : Type} : XmlItems α → List α
  | .one a => [a]
  | .many l => l

/-- A `url` entry of a urlset as produced by the XML parser: its `loc`
field may be absent. -/
structure UrlEntry : Type where
  loc : Option JSStr
deriving DecidableEq

/-- A `sitemap` entry of a sitemapindex: its `loc` field may be absent. -/
structure SitemapEntry : Type where
  loc : Option JSStr
deriving DecidableEq

/-- A parsed XML document as inspected by the duck-typed checks
`parsed.sitemapindex && parsed.sitemapindex.sitemap` and
`parsed.urlset && parsed.urlset.url`: each field is `some` exactly when
the corresponding pair of checks passes. -/
structure ParsedXml : Type where
  sitemapindex : Option (XmlItems SitemapEntry)
  urlset : Option (XmlItems UrlEntry)
deriving DecidableEq

/-- The truthiness test `if (url.loc)` guarding each push in
src/a11y.js lines 193-197 and 214-218: an absent loc and the empty
string are both falsy. -/
def truthyLoc (e : UrlEntry) : Option JSStr :=
  match e.loc with
  | some l => if l.isEmpty then none else some l
  | none => none

/-- Sequential accumulation of a loop that pushes `f a` for each `a`. -/
def collectAll {α β : Type} (f : α → List β) : List α → List β
  | [] => []
  | a :: as => f a ++ collectAll f as

/-- The URLs contributed by one child of a sitemap index in
src/a11y.js lines 180-204: fetch and parse the loc (any failure,
including an absent loc, is caught and yields nothing), then collect
the loc values of the urlset entries of the child; a child without a
urlset root (for example a nested index) contributes nothing. -/
def childUrls (env : JSStr → Except Unit ParsedXml) (entry : SitemapEntry) :
    List JSStr :=
  match entry.loc with
  | none => []
  | some u =>
    match env u with
    | .error _ => []
    | .ok childParsed =>
      match childParsed.urlset with
      | some items => items.toList.filterMap truthyLoc
      | none => []

/-- URL extraction of `createUrlListFromSitemap` (src/a11y.js lines
162-221) from an already fetched and parsed root document.  `env` is
the fetch-and-parse oracle used for children of a sitemap index. -/
def extractUrls (env : JSStr → Except Unit ParsedXml) (parsed : ParsedXml) :
    List JSStr :=
  match parsed.sitemapindex with
  | some items =>
    let sitemaps := items.toList
    collectAll (childUrls env) (sitemaps.take (min 3 sitemaps.length))
  | none =>
    match parsed.urlset with
    | some items => items.toList.filterMap truthyLoc
    | none => []

/-- `createUrlListFromSitemap` (src/a11y.js lines 149-243) after the
root fetch and parse succeeded: `none` when no URL was found (the
source returns null), otherwise the first `Math.min(50, n)` URLs that
will be written to the url_list file. -/
def createUrlListFromSitemap (env : JSStr → Except Unit ParsedXml)
    (parsed : ParsedXml) : Option (List JSStr) :=
  let urls := extractUrls env parsed
  if urls.length = 0 then none
  else some (urls.take (min 50 urls.length))

/-- Expanding a sitemap URL directly: fetch and parse it, then extract
its URLs; a failed fetch or parse yields nothing.  Used to state the
claimed equivalence between child processing and direct expansion. -/
def expandLoc (env : JSStr → Except Unit ParsedXml) (u : JSStr) : List JSStr :=
  match env u with
  | .error _ => []
  | .ok d => extractUrls env d

/-- Modelled from the wording of the spec (section 8, round-trip and
index properties): the claimed output of expanding a sitemap index is
every child, in order, expanded exactly as its loc would be expanded
directly. -/
def specIndexExpand (env : JSStr → Except Unit ParsedXml)
    (items : XmlItems SitemapEntry) : List JSStr :=
  collectAll (fun e => expandLoc env (e.loc.getD [])) items.toList

/-- Modelled from the wording of the spec (section 4.1): the URLs of a
textual robots.txt are, for every line whose trimmed case-insensitive
form starts with the sitemap keyword and colon, the remainder of that
line after the colon, trimmed. -/
def specSitemapLines (txt : JSStr) : List JSStr :=
  ((splitNl txt).filter lineIsSitemap).map (fun l => trim ((trim l).drop 8))

/-- An HTTP response as consumed by `fetchUrl`. -/
structure HttpResponse : Type where
  statusCode : Nat
  location : Option JSStr
  contentEncoding : Option JSStr
  body : JSStr
deriving DecidableEq

/-- The gzip handling of src/sitemap.js lines 259-271 and src/a11y.js
lines 641-653: when the response declares gzip content-encoding, try to
decompress (`gunzip` is the zlib oracle); on failure keep the raw
buffer. -/
def decodeBody (gunzip : JSStr → Option JSStr) (res : HttpResponse) : JSStr :=
  if res.contentEncoding = some (jstr "gzip") then
    match gunzip res.body with
    | some d => d
    | none => res.body
  else res.body

/-- What `fetchUrl` does with one response. -/
inductive FetchStep : Type
  | redirectTo : JSStr → FetchStep
  | failStatus : Nat → FetchStep
  | content : JSStr → FetchStep
deriving DecidableEq

/-- The response handler of `fetchUrl` (src/sitemap.js lines 240-272,
src/a11y.js lines 620-654): a 3xx status with a Location header
redirects; any other non-200 status rejects; a 200 resolves with the
(possibly decompressed) body. -/
def fetchStep (gunzip : JSStr → Option JSStr) (res : HttpResponse) :
    FetchStep :=
  if 300 ≤ res.statusCode ∧ res.statusCode < 400 ∧ res.location.isSome then
    .redirectTo (res.location.getD [])
  else if res.statusCode ≠ 200 then .failStatus res.statusCode
  else .content (decodeBody gunzip res)

/-- Failure outcomes of the modelled fetch. -/
inductive FetchFailure : Type
  | network : FetchFailure
  | badStatus : Nat → FetchFailure
  | outOfFuel : FetchFailure
deriving DecidableEq

/-- `fetchUrl` over a network oracle `env`, with `resolve loc base`
standing for `new URL(loc, base).href`.  The source recursion carries
no hop bound; the fuel only totalizes the model, and exhausting it
represents the unbounded recursion a redirect cycle would cause. -/
def fetchUrl (gunzip : JSStr → Option JSStr)
    (resolve : JSStr → JSStr → JSStr)
    (env : JSStr → Option HttpResponse) : Nat → JSStr →
    Except FetchFailure JSStr
  | 0, _ => .error .outOfFuel
  | fuel + 1, url =>
    match env url with
    | none => .error .network
    | some res =>
      match fetchStep gunzip res with
      | .redirectTo loc => fetchUrl gunzip resolve env fuel (resolve loc url)
      | .failStatus c => .error (.badStatus c)
      | .content b => .ok b

/-- A redirect chain of exactly `n` hops from a URL to a final body:
each hop is a response `fetchStep` classifies as a redirect, and the
last URL yields content. -/
inductive Redirects (gunzip : JSStr → Option JSStr)
    (resolve : JSStr → JSStr → JSStr)
    (env : JSStr → Option HttpResponse) : Nat → JSStr → JSStr → Prop
  | done : ∀ (url : JSStr) (res : HttpResponse) (b : JSStr),
      env url = some res → fetchStep gunzip res = .content b →
      Redirects gunzip resolve env 0 url b
  | step : ∀ (url : JSStr) (res : HttpResponse) (loc : JSStr) (n : Nat)
      (b : JSStr),
      env url = some res → fetchStep gunzip res = .redirectTo loc →
      Redirects gunzip resolve env n (resolve loc url) b →
      Redirects gunzip resolve env (n + 1) url b

/-- Fetch oracle in which every child fetch fails. -/
def envErr : JSStr → Except Unit ParsedXml := fun _ => .error ()

/-- A well-formed urlset document with 51 url entries. -/
def doc51 : ParsedXml :=
  { sitemapindex := none,
    urlset := some (.many (List.replicate 51 ⟨some [117]⟩)) }

/-- A well-formed urlset document with two url entries. -/
def docAB : ParsedXml :=
  { sitemapindex := none,
    urlset := some (.many [⟨some (jstr "https://e.com/a")⟩,
                           ⟨some (jstr "https://e.com/b")⟩]) }

/-- A urlset document holding one page URL. -/
def leafDoc (u : String) : ParsedXml :=
  { sitemapindex := none, urlset := some (.one ⟨some (jstr u)⟩) }

/-- A sitemap index whose first child is itself a sitemap index (its
grandchild holds page URL g1) and whose other three children are leaf
urlsets. -/
def idx4Items : XmlItems SitemapEntry :=
  .many [⟨some (jstr "c1")⟩, ⟨some (jstr "c2")⟩,
         ⟨some (jstr "c3")⟩, ⟨some (jstr "c4")⟩]

/-- Root document for the four-child index scenario. -/
def idx4Doc : ParsedXml := { sitemapindex := some idx4Items, urlset := none }

/-- The nested-index child of the four-child scenario. -/
def nestedIdxDoc : ParsedXml :=
  { sitemapindex := some (.one ⟨some (jstr "c1a")⟩), urlset := none }

/-- Fetch oracle for the four-child index scenario. -/
def envIdx4 : JSStr → Except Unit ParsedXml := fun u =>
  if u = jstr "c1" then .ok nestedIdxDoc
  else if u = jstr "c1a" then .ok (leafDoc "g1")
  else if u = jstr "c2" then .ok (leafDoc "u2")
  else if u = jstr "c3" then .ok (leafDoc "u3")
  else if u = jstr "c4" then .ok (leafDoc "u4")
  else .error ()

/-- The two-child index of the failed-sibling scenario from the spec:
p1 fetches fine, p2 does not. -/
def idxP12Items : XmlItems SitemapEntry :=
  .many [⟨some (jstr "https://x.com/p1.xml")⟩,
         ⟨some (jstr "https://x.com/p2.xml")⟩]

/-- Root document of the failed-sibling scenario. -/
def idxP12Doc : ParsedXml :=
  { sitemapindex := some idxP12Items, urlset := none }

/-- Fetch oracle of the failed-sibling scenario: p1 yields a two-URL
urlset, p2 fails to fetch. -/
def envP12 : JSStr → Except Unit ParsedXml := fun u =>
  if u = jstr "https://x.com/p1.xml" then
    .ok { sitemapindex := none,
          urlset := some (.many [⟨some (jstr "https://x.com/page1")⟩,
                                 ⟨some (jstr "https://x.com/page2")⟩]) }
  else .error ()

/-- Gzip oracle of the decompression scenario: only the body `zzz`
decompresses, everything else fails to gunzip. -/
def gzOracle : JSStr → Option JSStr := fun b =>
  if b = jstr "zzz" then some (jstr "<urlset/>") else none

/-- A 200 response declaring gzip encoding with a decompressible body. -/
def resGzOk : HttpResponse :=
  { statusCode := 200, location := none,
    contentEncoding := some (jstr "gzip"), body := jstr "zzz" }

/-- A 200 response declaring gzip encoding whose body fails to
decompress. -/
def resGzBad : HttpResponse :=
  { statusCode := 200, location := none,
    contentEncoding := some (jstr "gzip"), body := jstr "raw-garble" }

/-- Gunzip oracle that always fails (no gzip responses involved). -/
def gzNone : JSStr → Option JSStr := fun _ => none

/-- URL resolution oracle treating every Location header as absolute. -/
def resolveAbs : JSStr → JSStr → JSStr := fun loc _ => loc

/-- A 301 redirect response pointing at the given target. -/
def redirResp (t : String) : HttpResponse :=
  { statusCode := 301, location := some (jstr t),
    contentEncoding := none, body := [] }

/-- The terminal 200 response of the redirect-chain scenario. -/
def okResp : HttpResponse :=
  { statusCode := 200, location := none, contentEncoding := none,
    body := jstr "final-body" }

/-- Network oracle holding a five-hop redirect chain r0 → r1 → r2 →
r3 → r4 → r5, with content at r5. -/
def envChain : JSStr → Option HttpResponse := fun u =>
  if u = jstr "r0" then some (redirResp "r1")
  else if u = jstr "r1" then some (redirResp "r2")
  else if u = jstr "r2" then some (redirResp "r3")
  else if u = jstr "r3" then some (redirResp "r4")
  else if u = jstr "r4" then some (redirResp "r5")
  else if u = jstr "r5" then some okResp
  else none

deriving instance DecidableEq for Except

theorem take_min_self {α : Type} (k : Nat) (l : List α) :
    l.take (min k l.length) = l.take k := by
  rcases Nat.le_total k l.length with hk | hk
  · rw [Nat.min_eq_left hk]
  · rw [Nat.min_eq_right hk, List.take_length, List.take_of_length_le hk]

theorem collectAll_sublist {α β : Type} (f : α → List β) (l : List α)
    (a : α) (ha : a ∈ l) : List.Sublist (f a) (collectAll f l) := by
  induction l with
  | nil => cases ha
  | cons x xs ih =>
    rcases List.mem_cons.mp ha with h | h
    · subst h; exact List.sublist_append_left _ _
    · exact (ih h).trans (List.sublist_append_right _ _)

theorem truthyLoc_of_isSome (e : UrlEntry)
    (h : (truthyLoc e).isSome = true) :
    truthyLoc e = some (e.loc.getD []) := by
  obtain ⟨loc⟩ := e
  cases loc with
  | none => simp [truthyLoc] at h
  | some l =>
    by_cases hl : l.isEmpty
    · simp [truthyLoc, hl] at h
    · simp [truthyLoc, hl]

theorem filterMap_truthy (L : List UrlEntry)
    (h : ∀ e ∈ L, (truthyLoc e).isSome = true) :
    L.filterMap truthyLoc = L.map (fun e => e.loc.getD []) := by
  induction L with
  | nil => rfl
  | cons e es ih =>
    have he := truthyLoc_of_isSome e (h e (by simp))
    have hrest := ih (fun x hx => h x (by simp [hx]))
    simp [List.filterMap_cons, he, hrest]

theorem extractUrls_index (env : JSStr → Except Unit ParsedXml)
    (parsed : ParsedXml) (items : XmlItems SitemapEntry)
    (hidx : parsed.sitemapindex = some items) :
    extractUrls env parsed = collectAll (childUrls env) (items.toList.take 3) := by
  simp only [extractUrls, hidx]
  rw [take_min_self]

/-- C1 counterexample: a well-formed urlset document with 51 url
entries, every loc present and non-empty, whose url-list output is not
the full loc sequence (the source truncates to 50). -/
theorem c1_roundtrip_counterexample :
    doc51.sitemapindex = none ∧
    doc51.urlset = some (.many (List.replicate 51 ⟨some [117]⟩)) ∧
    (∀ e ∈ List.replicate 51 (⟨some [117]⟩ : UrlEntry),
      (truthyLoc e).isSome = true) ∧
    createUrlListFromSitemap envErr doc51 ≠
      some ((List.replicate 51 (⟨some [117]⟩ : UrlEntry)).map
        (fun e => e.loc.getD [])) := by decide

/-- C1 (amended): for every well-formed urlset document (no
sitemapindex root, at least one url entry, every entry with a truthy
loc), the url-list output is exactly the first fifty loc values, in
document order; in particular it is the full loc sequence whenever the
document has at most fifty entries. -/
theorem c1_roundtrip_amended (env : JSStr → Except Unit ParsedXml)
    (parsed : ParsedXml) (items : XmlItems UrlEntry)
    (hidx : parsed.sitemapindex = none) (hurl : parsed.urlset = some items)
    (hne : items.toList ≠ [])
    (hloc : ∀ e ∈ items.toList, (truthyLoc e).isSome = true) :
    createUrlListFromSitemap env parsed =
      some ((items.toList.map (fun e => e.loc.getD [])).take 50) := by
  have hext : extractUrls env parsed =
      items.toList.map (fun e => e.loc.getD []) := by
    simp only [extractUrls, hidx, hurl]
    exact filterMap_truthy _ hloc
  have hlen : (extractUrls env parsed).length ≠ 0 := by
    rw [hext, List.length_map]
    simpa [List.length_eq_zero] using hne
  simp only [createUrlListFromSitemap, if_neg hlen]
  rw [hext, take_min_self]

/-- C1 witness: the amended theorem applied to a two-entry urlset. -/
theorem c1_roundtrip_amended_witness :
    createUrlListFromSitemap envErr docAB =
      some [jstr "https://e.com/a", jstr "https://e.com/b"] := by
  have h := c1_roundtrip_amended envErr docAB
    (.many [⟨some (jstr "https://e.com/a")⟩, ⟨some (jstr "https://e.com/b")⟩])
    rfl rfl (by decide) (by decide)
  rw [h]; decide

/-- C2 counterexample: a sitemap index with four children, the first of
which is itself a sitemap index.  The extraction is not the
concatenation of directly expanding every loc: the fourth child is
never processed and the nested index child is read as a urlset (hence
contributes nothing) instead of being expanded recursively. -/
theorem c2_index_counterexample :
    idx4Doc.sitemapindex = some idx4Items ∧
    extractUrls envIdx4 idx4Doc ≠ specIndexExpand envIdx4 idx4Items := by
  decide

/-- C2 (amended): expanding a sitemap index processes only the first
min(3, n) of its n sitemap entries, in order; each processed child
contributes the loc values of the urlset entries of its fetched
document (children are read one level deep as urlsets, so a nested
index child, a failed fetch, or an absent loc contributes nothing and
no recursive expansion happens). -/
theorem c2_index_amended (env : JSStr → Except Unit ParsedXml)
    (parsed : ParsedXml) (items : XmlItems SitemapEntry)
    (hidx : parsed.sitemapindex = some items) :
    extractUrls env parsed = collectAll (childUrls env) (items.toList.take 3) ∧
    (items.toList.take 3).length = min 3 items.toList.length := by
  exact ⟨extractUrls_index env parsed items hidx, by simp [List.length_take]⟩

/-- C2 witness: the amended theorem applied to the four-child index. -/
theorem c2_index_amended_witness :
    extractUrls envIdx4 idx4Doc = [jstr "u2", jstr "u3"] := by
  have h := (c2_index_amended envIdx4 idx4Doc idx4Items rfl).1
  rw [h]; decide

/-- C3: expanding a sitemap index never aborts on a failed child: each
child among the processed ones contributes its URL block to the result
in order (so every successfully expanded sibling keeps its URLs), and a
child whose fetch fails contributes the empty URL block. -/
theorem c3_child_failure_isolated (env : JSStr → Except Unit ParsedXml)
    (parsed : ParsedXml) (items : XmlItems SitemapEntry)
    (hidx : parsed.sitemapindex = some items)
    (e : SitemapEntry) (he : e ∈ items.toList.take 3) :
    List.Sublist (childUrls env e) (extractUrls env parsed) ∧
    (∀ u, e.loc = some u → env u = .error () → childUrls env e = []) := by
  constructor
  · rw [extractUrls_index env parsed items hidx]
    exact collectAll_sublist _ _ _ he
  · intro u hu herr
    simp [childUrls, hu, herr]

/-- C3 witness: the two-child scenario of the spec, where p2 fails to
fetch: the URLs of p1 survive in the result and p2 contributes none. -/
theorem c3_child_failure_isolated_witness :
    List.Sublist (childUrls envP12 ⟨some (jstr "https://x.com/p1.xml")⟩)
      (extractUrls envP12 idxP12Doc) ∧
    childUrls envP12 ⟨some (jstr "https://x.com/p2.xml")⟩ = [] := by
  refine ⟨(c3_child_failure_isolated envP12 idxP12Doc idxP12Items rfl
    ⟨some (jstr "https://x.com/p1.xml")⟩ (by decide)).1, ?_⟩
  exact (c3_child_failure_isolated envP12 idxP12Doc idxP12Items rfl
    ⟨some (jstr "https://x.com/p2.xml")⟩ (by decide)).2
    (jstr "https://x.com/p2.xml") rfl (by decide)

/-- C4: the fallback of the locator is asymmetric: a failed robots.txt
fetch yields the two conventional URLs, in order; a successful fetch
that declares no sitemap yields only the single sitemap.xml fallback. -/
theorem c4_fallback_asymmetry (base : JSStr) :
    locateSitemaps base (.error ()) =
      [base ++ jstr "/sitemap.xml", base ++ jstr "/sitemap_index.xml"] ∧
    ∀ txt, robotsSitemapLines txt = [] →
      locateSitemaps base (.ok txt) = [base ++ jstr "/sitemap.xml"] := by
  constructor
  · simp [locateSitemaps, findSitemapsFromRobotsTxt]
  · intro txt h
    simp [locateSitemaps, findSitemapsFromRobotsTxt, h]

/-- C4 witness: both branches of the asymmetry at the example origin. -/
theorem c4_fallback_asymmetry_witness :
    locateSitemaps (jstr "https://example.com") (.error ()) =
      [jstr "https://example.com/sitemap.xml",
       jstr "https://example.com/sitemap_index.xml"] ∧
    locateSitemaps (jstr "https://example.com") (.ok (jstr "User-agent: *")) =
      [jstr "https://example.com/sitemap.xml"] := by
  have h := c4_fallback_asymmetry (jstr "https://example.com")
  refine ⟨?_, ?_⟩
  · rw [h.1]; decide
  · rw [h.2 (jstr "User-agent: *") (by decide)]; decide

/-- C6: the content heuristic holds exactly when the fraction of code
points in the printable ASCII range 32-126 (inclusive) strictly exceeds
8/10; content it rejects is routed to the regex fallback scan. -/
theorem c6_text_heuristic (c : JSStr) (h : c ≠ []) :
    (isTextContent c = true ↔
      (8 : ℚ) / 10 <
        (c.countP (fun ch => decide (32 ≤ ch ∧ ch ≤ 126)) : ℚ) /
          (c.length : ℚ)) ∧
    (isTextContent c = false → robotsSitemapLines c = regexSitemapScan c) := by
  constructor
  · have hc : c.countP (fun ch => decide (32 ≤ ch ∧ ch ≤ 126)) =
        printableCount c := by
      rw [printableCount, ← List.countP_eq_length_filter]
      refine List.countP_congr ?_
      intro a _
      simp only [decide_eq_true_eq]
      omega
    have hn : (0 : ℚ) < (c.length : ℚ) := by
      have : 0 < c.length := List.length_pos.mpr h
      exact_mod_cast this
    rw [hc, div_lt_div_iff₀ (by norm_num) hn, isTextContent, decide_eq_true_eq]
    constructor
    · intro hlt
      have : (8 * c.length : Nat) < printableCount c * 10 := by omega
      exact_mod_cast this
    · intro hlt
      have : (8 * c.length : Nat) < printableCount c * 10 := by exact_mod_cast hlt
      omega
  · intro h2
    simp [robotsSitemapLines, h2]

/-- C6 witness: a concrete non-empty all-printable string classified as
textual, hence with printable fraction above 8/10. -/
theorem c6_text_heuristic_witness :
    (8 : ℚ) / 10 <
      ((jstr "ok!").countP (fun ch => decide (32 ≤ ch ∧ ch ≤ 126)) : ℚ) /
        ((jstr "ok!").length : ℚ) :=
  (c6_text_heuristic (jstr "ok!") (by decide)).1.mp (by decide)

/-- C7: a 200 response declaring gzip content-encoding is decompressed
before being returned; when decompression fails the fetch still
resolves, with the raw body, so a decode failure never propagates. -/
theorem c7_gzip_fallback (gunzip : JSStr → Option JSStr)
    (res : HttpResponse) (henc : res.contentEncoding = some (jstr "gzip"))
    (h200 : res.statusCode = 200) :
    (∀ d, gunzip res.body = some d → fetchStep gunzip res = .content d) ∧
    (gunzip res.body = none → fetchStep gunzip res = .content res.body) := by
  have hs : fetchStep gunzip res = .content (decodeBody gunzip res) := by
    simp only [fetchStep, h200]
    norm_num
  constructor
  · intro d hd
    rw [hs]
    simp [decodeBody, henc, hd]
  · intro hd
    rw [hs]
    simp [decodeBody, henc, hd]

/-- C7 witness: the decompression scenario, succeeding on one body and
falling back to the raw bytes on another. -/
theorem c7_gzip_fallback_witness :
    fetchStep gzOracle resGzOk = .content (jstr "<urlset/>") ∧
    fetchStep gzOracle resGzBad = .content (jstr "raw-garble") := by
  refine ⟨(c7_gzip_fallback gzOracle resGzOk rfl rfl).1 _ (by decide), ?_⟩
  exact (c7_gzip_fallback gzOracle resGzBad rfl rfl).2 (by decide)

/-- C8: a redirect chain of any length n whose hops are 3xx responses
with Location headers and whose last URL yields content resolves, for
every fuel bound above n, to the final body: the code enforces no hop
limit, so in particular every chain of length at most five resolves to
the content of its final URL. -/
theorem c8_redirect_chain (gunzip : JSStr → Option JSStr)
    (resolve : JSStr → JSStr → JSStr) (env : JSStr → Option HttpResponse)
    (n : Nat) (url b : JSStr)
    (h : Redirects gunzip resolve env n url b) :
    ∀ fuel, n < fuel → fetchUrl gunzip resolve env fuel url = .ok b := by
  induction h with
  | done u res bb henv hstep =>
    intro fuel hf
    cases fuel with
    | zero => omega
    | succ f => simp [fetchUrl, henv, hstep]
  | step u res loc m bb henv hstep hrec ih =>
    intro fuel hf
    cases fuel with
    | zero => omega
    | succ f =>
      have hm : m < f := by omega
      simp [fetchUrl, henv, hstep, ih f hm]

/-- C8 witness: a five-hop redirect chain resolving to the final body
with fuel six. -/
theorem c8_redirect_chain_witness :
    fetchUrl gzNone resolveAbs envChain 6 (jstr "r0") =
      .ok (jstr "final-body") := by
  have chain : Redirects gzNone resolveAbs envChain 5 (jstr "r0")
      (jstr "final-body") :=
    .step (jstr "r0") (redirResp "r1") (jstr "r1") 4 (jstr "final-body")
      (by decide) (by decide)
    (.step (jstr "r1") (redirResp "r2") (jstr "r2") 3 _ (by decide) (by decide)
    (.step (jstr "r2") (redirResp "r3") (jstr "r3") 2 _ (by decide) (by decide)
    (.step (jstr "r3") (redirResp "r4") (jstr "r4") 1 _ (by decide) (by decide)
    (.step (jstr "r4") (redirResp "r5") (jstr "r5") 0 _ (by decide) (by decide)
    (.done (jstr "r5") okResp _ (by decide) (by decide))))))
  exact c8_redirect_chain gzNone resolveAbs envChain 5 (jstr "r0")
    (jstr "final-body") chain 6 (by omega)

/-- C9: whenever the url-list step produces a list, that list holds at
most fifty URLs and is exactly the first fifty extracted URLs, in
extraction order. -/
theorem c9_url_limit (env : JSStr → Except Unit ParsedXml)
    (parsed : ParsedXml) (urls : List JSStr)
    (h : createUrlListFromSitemap env parsed = some urls) :
    urls.length ≤ 50 ∧ urls = (extractUrls env parsed).take 50 := by
  by_cases h0 : (extractUrls env parsed).length = 0
  · simp [createUrlListFromSitemap, h0] at h
  · simp only [createUrlListFromSitemap, if_neg h0, Option.some.injEq] at h
    subst h
    refine ⟨?_, by rw [take_min_self]⟩
    rw [List.length_take]
    omega

/-- C9 witness: the 51-entry urlset yields exactly fifty URLs. -/
theorem c9_url_limit_witness :
    (List.replicate 50 ([117] : JSStr)).length ≤ 50 ∧
    List.replicate 50 ([117] : JSStr) = (extractUrls envErr doc51).take 50 :=
  c9_url_limit envErr doc51 (List.replicate 50 [117]) (by decide)

/-- C10: the empty content string is classified as non-textual (the
unguarded division yields a comparison that is false, exactly as NaN
compares false), so empty content always takes the regex fallback path,
which finds nothing in it; the heuristic is total. -/
theorem c10_empty_content :
    isTextContent [] = false ∧
    robotsSitemapLines [] = regexSitemapScan [] ∧
    regexSitemapScan [] = [] := by decide

theorem isPfx_take : ∀ (p s : JSStr), isPfx p s = true →
    p.length ≤ s.length ∧ s.take p.length = p
  | [], _, _ => ⟨Nat.zero_le _, rfl⟩
  | p :: ps, [], h => by simp [isPfx] at h
  | p :: ps, c :: cs, h => by
    rw [isPfx] at h
    by_cases hc : p = c
    · rw [if_pos hc] at h
      obtain ⟨h1, h2⟩ := isPfx_take ps cs h
      subst hc
      exact ⟨by simpa using h1, by simp [h2]⟩
    · rw [if_neg hc] at h
      exact absurd h (by simp)

theorem map_lower_cons {v : Nat} {vs : List Nat} {s : JSStr}
    (h : s.map lower = v :: vs) :
    ∃ a t, s = a :: t ∧ lower a = v ∧ t.map lower = vs := by
  cases s with
  | nil => simp at h
  | cons a t =>
    simp only [List.map_cons, List.cons.injEq] at h
    exact ⟨a, t, rfl, h.1, h.2⟩

theorem lower_eq_58 (a : Nat) (h : lower a = 58) : a = 58 := by
  by_cases hc : 65 ≤ a ∧ a ≤ 90
  · rw [lower, if_pos hc] at h
    omega
  · rwa [lower, if_neg hc] at h

theorem lower_ne_58 (a v : Nat) (h : lower a = v) (hv : v ≠ 58) : a ≠ 58 := by
  intro ha
  subst ha
  rw [lower, if_neg (by omega)] at h
  exact hv h.symm

theorem isWs_ne_58 (c : Nat) (h : isWs c = true) : c ≠ 58 := by
  intro hc
  subst hc
  exact absurd h (by decide)

theorem dropWhile_all {α : Type} (p : α → Bool) :
    ∀ l : List α, (∀ c ∈ l, p c = true) → l.dropWhile p = []
  | [], _ => rfl
  | x :: xs, h => by
    rw [List.dropWhile_cons, if_pos (h x (by simp))]
    exact dropWhile_all p xs (fun c hc => h c (by simp [hc]))

theorem rtrim_decomp (m : JSStr) :
    ∃ suf, m = rtrim m ++ suf ∧ ∀ c ∈ suf, isWs c = true := by
  refine ⟨(m.reverse.takeWhile isWs).reverse, ?_, ?_⟩
  · calc m = m.reverse.reverse := (List.reverse_reverse m).symm
    _ = (m.reverse.takeWhile isWs ++ m.reverse.dropWhile isWs).reverse := by
        rw [List.takeWhile_append_dropWhile]
    _ = rtrim m ++ (m.reverse.takeWhile isWs).reverse := by
        rw [List.reverse_append, rtrim]
  · intro c hc
    exact List.mem_takeWhile_imp (List.mem_reverse.mp hc)

theorem rtrim_append_ws (y suf : JSStr) (h : ∀ c ∈ suf, isWs c = true) :
    rtrim (y ++ suf) = rtrim y := by
  rw [rtrim, rtrim, List.reverse_append,
      List.dropWhile_append_of_pos
        (fun c hc => h c (List.mem_reverse.mp hc))]

theorem trim_append_ws (x suf : JSStr) (h : ∀ c ∈ suf, isWs c = true) :
    trim (x ++ suf) = trim x := by
  rw [trim, trim, List.dropWhile_append]
  by_cases hx : (x.dropWhile isWs).isEmpty
  · rw [if_pos hx, dropWhile_all _ _ h]
    have hx2 : x.dropWhile isWs = [] := by
      cases hempty : x.dropWhile isWs with
      | nil => rfl
      | cons a t => rw [hempty] at hx; simp at hx
    rw [hx2]
  · rw [if_neg hx]
    exact rtrim_append_ws _ _ h

theorem dropAfterColon_append_no58 :
    ∀ (pre rest : JSStr), (∀ c ∈ pre, c ≠ 58) →
      dropAfterColon (pre ++ rest) = dropAfterColon rest
  | [], _, _ => rfl
  | c :: cs, rest, h => by
    rw [List.cons_append, dropAfterColon, if_neg (h c (by simp))]
    exact dropAfterColon_append_no58 cs rest (fun x hx => h x (by simp [hx]))

theorem afterColonTrim_spec (l : JSStr) (h : lineIsSitemap l = true) :
    afterColonTrim l = trim ((trim l).drop 8) := by
  rw [lineIsSitemap] at h
  obtain ⟨hlen, htake⟩ := isPfx_take _ _ h
  rw [← List.map_take] at htake
  have h8 : (jstr "sitemap:").length = 8 := by decide
  have hSL : jstr "sitemap:" = [115, 105, 116, 101, 109, 97, 112, 58] := by
    decide
  rw [h8, hSL] at htake
  obtain ⟨a0, t0, he, h0, hm⟩ := map_lower_cons htake
  obtain ⟨a1, t1, rfl, h1, hm⟩ := map_lower_cons hm
  obtain ⟨a2, t2, rfl, h2, hm⟩ := map_lower_cons hm
  obtain ⟨a3, t3, rfl, h3, hm⟩ := map_lower_cons hm
  obtain ⟨a4, t4, rfl, h4, hm⟩ := map_lower_cons hm
  obtain ⟨a5, t5, rfl, h5, hm⟩ := map_lower_cons hm
  obtain ⟨a6, t6, rfl, h6, hm⟩ := map_lower_cons hm
  obtain ⟨a7, t7, rfl, h7, hm⟩ := map_lower_cons hm
  have ht7 : t7 = [] := by simpa using hm
  subst ht7
  have ha7 : a7 = 58 := lower_eq_58 a7 h7
  subst ha7
  obtain ⟨suf, hdec, hsufws⟩ := rtrim_decomp (l.dropWhile isWs)
  have htl : trim l = rtrim (l.dropWhile isWs) := rfl
  have hMsplit : trim l =
      [a0, a1, a2, a3, a4, a5, a6] ++ 58 :: (trim l).drop 8 := by
    conv_lhs => rw [← List.take_append_drop 8 (trim l)]
    rw [he]
    simp
  have hA : ∀ c ∈ [a0, a1, a2, a3, a4, a5, a6], c ≠ 58 := by
    intro c hc
    simp only [List.mem_cons, List.not_mem_nil, or_false] at hc
    rcases hc with rfl | rfl | rfl | rfl | rfl | rfl | rfl
    · exact lower_ne_58 _ _ h0 (by decide)
    · exact lower_ne_58 _ _ h1 (by decide)
    · exact lower_ne_58 _ _ h2 (by decide)
    · exact lower_ne_58 _ _ h3 (by decide)
    · exact lower_ne_58 _ _ h4 (by decide)
    · exact lower_ne_58 _ _ h5 (by decide)
    · exact lower_ne_58 _ _ h6 (by decide)
  have hdac : dropAfterColon l = some ((trim l).drop 8 ++ suf) := by
    conv_lhs => rw [← List.takeWhile_append_dropWhile (p := isWs) (l := l)]
    rw [dropAfterColon_append_no58 _ _
      (fun c hc => isWs_ne_58 c (List.mem_takeWhile_imp hc))]
    conv_lhs => rw [hdec, ← htl, hMsplit]
    rw [List.append_assoc]
    rw [dropAfterColon_append_no58 _ _ hA]
    simp [dropAfterColon]
  simp only [afterColonTrim, hdac]
  rw [trim_append_ws _ _ hsufws]

theorem sitemapLines_spec_eq (txt : JSStr) :
    sitemapLinesFromRobots txt =
      (specSitemapLines txt).filter (fun u => decide (0 < u.length)) := by
  rw [sitemapLinesFromRobots, specSitemapLines]
  congr 1
  apply List.map_congr_left
  intro a ha
  exact afterColonTrim_spec a (List.mem_filter.mp ha).2

/-- C5 counterexample: the one-line textual body consisting of the
sitemap keyword and a bare colon.  Its single qualifying line has an
empty remainder after the colon, which the claim keeps but the source
filters out, so the scan result differs from the claimed line map. -/
theorem c5_robots_lines_counterexample :
    isTextContent (jstr "Sitemap:") = true ∧
    robotsSitemapLines (jstr "Sitemap:") ≠
      specSitemapLines (jstr "Sitemap:") := by decide

/-- C5 (amended): for every textual robots.txt body, the scan returns
exactly the non-empty remainders-after-the-colon (trimmed) of the lines
whose trimmed, case-insensitive form starts with the sitemap keyword
and colon, in file order; a qualifying line whose remainder is empty
after trimming is dropped.  The source computes the remainder from the
first colon of the raw line; the theorem shows this coincides with
dropping the eight-code-point keyword from the trimmed line. -/
theorem c5_robots_lines_amended (txt : JSStr)
    (h : isTextContent txt = true) :
    robotsSitemapLines txt =
      (specSitemapLines txt).filter (fun u => decide (0 < u.length)) := by
  rw [robotsSitemapLines, if_pos h]
  exact sitemapLines_spec_eq txt

/-- C5 witness: the two-declaration robots.txt of the spec example
yields exactly the two URLs, in file order. -/
theorem c5_robots_lines_amended_witness :
    robotsSitemapLines (jstr "User-agent: *\nSitemap: https://example.com/a.xml\nSitemap: https://example.com/b.xml") =
      [jstr "https://example.com/a.xml", jstr "https://example.com/b.xml"] := by
  rw [c5_robots_lines_amended _ (by decide)]
  decide
